import Mathlib

/-!
# Command tee transforms and the driver wrapper of `mediadevices`

A shallow embedding of

* `pkg/driver/cmdsource/audiocmdtee.go` (`UnsafeCastInt16sToBytes`,
  `UnsafeCastFloat32sToBytes`, `getChunkBytes`, `CreateAudioCmdTeeTransformer`,
  `audioWrite`),
* `pkg/driver/cmdsource/videocmdtee.go` (`getImageBytes`,
  `CreateVideoCmdTeeTransformer`, `videoWrite`),
* `pkg/driver/wrapper.go` (`adapterWrapper`),

followed by the properties proved about them.

Conventions of the embedding.

* A Go slice is a `List`; a nil slice and an empty slice are both `[]`.
* A Go interface value that may be nil (`wave.Audio`, `image.Image`, `error`)
  is an `Option`; `none` is nil.  Frames are values: a typed nil pointer inside
  a non-nil interface is not represented.
* A Go run-time panic is the `panic` outcome of `Result`.
* The process host (`cmdSource`, of `cmdsource.go`) is observed through the
  calls made on it: every call is appended to a trace of `Event`s, and what the
  operating system answers to a call is an input of the model.
* `int` is 64 bits wide.
-/

namespace Mediadevices

/-! ## Machine data -/

/-- One octet. -/
abbrev Byte := Fin 256

/-- Go `int16`: an integer in the range of a signed 16-bit word. -/
abbrev Int16 := { v : Int // -32768 ≤ v ∧ v < 32768 }

/-- Go `float32`, represented by the 32 bits it occupies in memory. -/
abbrev Float32 := { bits : Nat // bits < 4294967296 }

/-- Go `int` arithmetic wraps modulo `2^64`. -/
def wrapInt (x : Int) : Int :=
  (x + 9223372036854775808) % 18446744073709551616 - 9223372036854775808

/-- Byte order of the platform the program runs on. -/
inductive Endian where
  | little
  | big
deriving DecidableEq, Repr

/-- Run-time panics the embedded code can raise. -/
inductive Fault where
  | indexOutOfRange
  | nilDereference
deriving DecidableEq, Repr

/-- Outcome of a Go call that either returns or panics. -/
inductive Result (α : Type) where
  | ret (a : α)
  | panic (f : Fault)
deriving DecidableEq, Repr

/-- Go `error` values: the package variable `errInvalidCommand` and any other error. -/
inductive Error where
  | errInvalidCommand
  | other (code : Nat)
deriving DecidableEq, Repr

def BYTES_IN_INT16 : Nat := 2

def BYTES_IN_FLOAT32 : Nat := 4

/-- The unsigned 16-bit pattern of an `int16` (two's complement). -/
def Int16.bits (x : Int16) : Nat := (x.val % 65536).toNat

/-- The `int16` whose two's complement pattern is `u % 2^16`. -/
def Int16.ofBits (u : Nat) : Int16 :=
  ⟨((u : Int) + 32768) % 65536 - 32768, by omega⟩

/-- The two bytes an `int16` occupies in memory, lowest address first. -/
def int16Bytes (e : Endian) (x : Int16) : List Byte :=
  let u := x.bits
  let lo : Byte := ⟨u % 256, Nat.mod_lt _ (by decide)⟩
  let hi : Byte := ⟨u / 256 % 256, Nat.mod_lt _ (by decide)⟩
  match e with
  | .little => [lo, hi]
  | .big => [hi, lo]

/-- The `int16` read from two adjacent bytes, lowest address first. -/
def int16OfBytes (e : Endian) (b0 b1 : Byte) : Int16 :=
  match e with
  | .little => Int16.ofBits (b0.val + 256 * b1.val)
  | .big => Int16.ofBits (b1.val + 256 * b0.val)

/-- The four bytes a `float32` occupies in memory, lowest address first. -/
def float32Bytes (e : Endian) (x : Float32) : List Byte :=
  let u := x.val
  let b0 : Byte := ⟨u % 256, Nat.mod_lt _ (by decide)⟩
  let b1 : Byte := ⟨u / 256 % 256, Nat.mod_lt _ (by decide)⟩
  let b2 : Byte := ⟨u / 65536 % 256, Nat.mod_lt _ (by decide)⟩
  let b3 : Byte := ⟨u / 16777216 % 256, Nat.mod_lt _ (by decide)⟩
  match e with
  | .little => [b0, b1, b2, b3]
  | .big => [b3, b2, b1, b0]

/-- `UnsafeCastInt16sToBytes`: the memory of `ints` viewed as `len(ints) * 2`
bytes.  `&ints[0]` panics on an empty slice. -/
def UnsafeCastInt16sToBytes (e : Endian) (ints : List Int16) : Result (List Byte) :=
  match ints with
  | [] => .panic .indexOutOfRange
  | _ :: _ => .ret ((ints.map (int16Bytes e)).flatten)

/-- `UnsafeCastFloat32sToBytes`: the memory of `floats` viewed as
`len(floats) * 4` bytes.  `&floats[0]` panics on an empty slice. -/
def UnsafeCastFloat32sToBytes (e : Endian) (floats : List Float32) : Result (List Byte) :=
  match floats with
  | [] => .panic .indexOutOfRange
  | _ :: _ => .ret ((floats.map (float32Bytes e)).flatten)

/-- The first `len(bytes) / 2` 16-bit words of a byte buffer. -/
def int16sOfBytes (e : Endian) : List Byte → List Int16
  | b0 :: b1 :: rest => int16OfBytes e b0 b1 :: int16sOfBytes e rest
  | _ => []

/-- `UnsafeCastBytesToInt16s` of `audiocmdtee_test.go`: the memory of `bytes`
viewed as `len(bytes) / 2` 16-bit integers.  `&bytes[0]` panics on an empty
slice. -/
def UnsafeCastBytesToInt16s (e : Endian) (bytes : List Byte) : Result (List Int16) :=
  match bytes with
  | [] => .panic .indexOutOfRange
  | _ :: _ => .ret (int16sOfBytes e bytes)

/-! ## Audio frames -/

/-- `wave.ChunkInfo`. -/
structure ChunkInfo where
  Len : Int
  Channels : Int
  SamplingRate : Int
deriving DecidableEq, Repr

/-- A non-nil `wave.Audio`: the four chunk types `getChunkBytes` names, and
any other implementation of the interface (`tag` tells such implementations
apart, `info` is what its `ChunkInfo()` returns). -/
inductive Audio where
  | Float32Interleaved (Data : List Float32) (Size : ChunkInfo)
  | Int16Interleaved (Data : List Int16) (Size : ChunkInfo)
  | Float32NonInterleaved (Data : List (List Float32)) (Size : ChunkInfo)
  | Int16NonInterleaved (Data : List (List Int16)) (Size : ChunkInfo)
  | other (tag : Nat) (info : ChunkInfo)
deriving DecidableEq, Repr

/-- The method `ChunkInfo()` of a chunk. -/
def Audio.ChunkInfo : Audio → ChunkInfo
  | .Float32Interleaved _ size => size
  | .Int16Interleaved _ size => size
  | .Float32NonInterleaved _ size => size
  | .Int16NonInterleaved _ size => size
  | .other _ info => info

/-- The loop `for _, channel := range chunk.Data { data = append(data, cast(channel)...) }`
started with the buffer `data`. -/
def appendChannels {α : Type} (cast : List α → Result (List Byte)) :
    List Byte → List (List α) → Result (List Byte)
  | data, [] => .ret data
  | data, channel :: rest =>
    match cast channel with
    | .panic f => .panic f
    | .ret bytes => appendChannels cast (data ++ bytes) rest

/-- `getChunkBytes`: the raw sample bytes of a chunk and its format tag. -/
def getChunkBytes (e : Endian) (chunk : Option Audio) : Result (List Byte × String) :=
  match chunk with
  | some (.Float32Interleaved data _) =>
    match UnsafeCastFloat32sToBytes e data with
    | .panic f => .panic f
    | .ret data => .ret (data, "Float32Interleaved")
  | some (.Int16Interleaved data _) =>
    match UnsafeCastInt16sToBytes e data with
    | .panic f => .panic f
    | .ret data => .ret (data, "Int16Interleaved")
  | some (.Float32NonInterleaved channels _) =>
    match appendChannels (UnsafeCastFloat32sToBytes e) [] channels with
    | .panic f => .panic f
    | .ret data => .ret (data, "Float32NonInterleaved")
  | some (.Int16NonInterleaved channels _) =>
    match appendChannels (UnsafeCastInt16sToBytes e) [] channels with
    | .panic f => .panic f
    | .ret data => .ret (data, "Int16NonInterleaved")
  | _ => .ret ([], "")

/-! ## Video frames -/

/-- `image.Point`. -/
structure Point where
  X : Int
  Y : Int
deriving DecidableEq, Repr

/-- `image.Rectangle`. -/
structure Rectangle where
  Min : Point
  Max : Point
deriving DecidableEq, Repr

/-- `Rectangle.Dx`: the width `Max.X - Min.X`. -/
def Rectangle.Dx (r : Rectangle) : Int := wrapInt (r.Max.X - r.Min.X)

/-- `Rectangle.Dy`: the height `Max.Y - Min.Y`. -/
def Rectangle.Dy (r : Rectangle) : Int := wrapInt (r.Max.Y - r.Min.Y)

/-- `image.YCbCrSubsampleRatio` is an `int`; this is its `String` method. -/
def YCbCrSubsampleRatio.String (s : Int) : String :=
  if s = 0 then "YCbCrSubsampleRatio444"
  else if s = 1 then "YCbCrSubsampleRatio422"
  else if s = 2 then "YCbCrSubsampleRatio420"
  else if s = 3 then "YCbCrSubsampleRatio440"
  else if s = 4 then "YCbCrSubsampleRatio411"
  else if s = 5 then "YCbCrSubsampleRatio410"
  else "YCbCrSubsampleRatioUnknown"

/-- A non-nil `image.Image`: the ten standard-library image types
`getImageBytes` names, and any other implementation of the interface (`tag`
tells such implementations apart, `bounds` is what its `Bounds()` returns). -/
inductive Image where
  | YCbCr (Y Cb Cr : List Byte) (YStride CStride : Int) (SubsampleRatio : Int)
      (Rect : Rectangle)
  | CMYK (Pix : List Byte) (Stride : Int) (Rect : Rectangle)
  | RGBA (Pix : List Byte) (Stride : Int) (Rect : Rectangle)
  | NRGBA (Pix : List Byte) (Stride : Int) (Rect : Rectangle)
  | RGBA64 (Pix : List Byte) (Stride : Int) (Rect : Rectangle)
  | NRGBA64 (Pix : List Byte) (Stride : Int) (Rect : Rectangle)
  | Gray (Pix : List Byte) (Stride : Int) (Rect : Rectangle)
  | Gray16 (Pix : List Byte) (Stride : Int) (Rect : Rectangle)
  | Alpha (Pix : List Byte) (Stride : Int) (Rect : Rectangle)
  | Alpha16 (Pix : List Byte) (Stride : Int) (Rect : Rectangle)
  | other (tag : Nat) (bounds : Rectangle)
deriving DecidableEq, Repr

/-- The method `Bounds()` of an image. -/
def Image.Bounds : Image → Rectangle
  | .YCbCr _ _ _ _ _ _ rect => rect
  | .CMYK _ _ rect => rect
  | .RGBA _ _ rect => rect
  | .NRGBA _ _ rect => rect
  | .RGBA64 _ _ rect => rect
  | .NRGBA64 _ _ rect => rect
  | .Gray _ _ rect => rect
  | .Gray16 _ _ rect => rect
  | .Alpha _ _ rect => rect
  | .Alpha16 _ _ rect => rect
  | .other _ bounds => bounds

/-- `getImageBytes`: the raw pixel bytes of an image, its format tag and its
chroma subsampling descriptor. -/
def getImageBytes (img : Option Image) : List Byte × String × String :=
  match img with
  | some (.YCbCr y cb cr _ _ ratio _) =>
    let bytes : List Byte := []
    let bytes := bytes ++ y
    let bytes := bytes ++ cb
    let bytes := bytes ++ cr
    (bytes, "YCbCr", YCbCrSubsampleRatio.String ratio ++ "+")
  | some (.CMYK pix _ _) => (pix, "CMYK", "")
  | some (.RGBA pix _ _) => (pix, "RGBA", "")
  | some (.NRGBA pix _ _) => (pix, "NRGBA", "")
  | some (.RGBA64 pix _ _) => (pix, "RGBA64", "")
  | some (.NRGBA64 pix _ _) => (pix, "NRGBA64", "")
  | some (.Gray pix _ _) => (pix, "Gray", "")
  | some (.Gray16 pix _ _) => (pix, "Gray16", "")
  | some (.Alpha pix _ _) => (pix, "Alpha", "")
  | some (.Alpha16 pix _ _) => (pix, "Alpha16", "")
  | _ => ([], "", "")

/-- `imgMetadata`. -/
structure imgMetadata where
  width : Int
  height : Int
  pixFormat : String
  pixSubsampleRatio : String
deriving DecidableEq, Repr

/-! ## The process host, seen through the calls made on it -/

/-- The struct handed to `addEnvVarsFromStruct`. -/
inductive EnvStruct where
  | chunkInfo (info : ChunkInfo)
  | imgMetadata (md : imgMetadata)
deriving DecidableEq, Repr

/-- A call made on the tee's process host (`cmdSource` and its `execCmd`), or
a log goroutine started on one of its pipes. -/
inductive Event where
  | Open
  | StdoutPipe
  | StderrPipe
  | StdinPipe
  | Start
  | logStdIoWithPrefix (pfx : String)
  | addEnvVarsFromStruct (props : EnvStruct) (logEnvVars : Bool)
  | Write (inputBytes : List Byte)
  | Close
deriving DecidableEq, Repr

/-- What the host answers to the calls of the construction phase (`none` is a
nil error). -/
structure HostAnswers where
  Open : Option Error
  StdoutPipe : Option Error
  StderrPipe : Option Error
  StdinPipe : Option Error
  Start : Option Error
deriving DecidableEq, Repr

/-- The block `if show { pipe, err := c.execCmd.XPipe(); if err != nil { return nil, err };
go c.logStdIoWithPrefix(fmt.Sprintf("%s stdX> ", label+":"+c.cmdArgs[0]), pipe) }`
of `audioWrite` and `videoWrite`.  The second component is `some r` when the
block leaves the function with `r`. -/
def showPipe (show_ : Bool) (pipe : Event) (answer : Option Error) (cmdArgs : List String)
    (label : String) (stream : String) (trace : List Event) :
    List Event × Option (Result (Option Error)) :=
  if show_ then
    match answer with
    | some err => (trace ++ [pipe], some (.ret (some err)))
    | none =>
      match cmdArgs with
      | [] => (trace ++ [pipe], some (.panic .indexOutOfRange))
      | arg0 :: _ =>
        (trace ++ [pipe, .logStdIoWithPrefix (label ++ ":" ++ arg0 ++ " " ++ stream ++ "> ")],
          none)
  else (trace, none)

/-- `audioWrite`: acquire the pipes and start the command.  Returns the error
of the Go function (`none`: the writer function was returned). -/
def audioWrite (os : HostAnswers) (cmdArgs : List String) (label : String)
    (showStdOut showStdErr : Bool) (trace : List Event) :
    List Event × Result (Option Error) :=
  match showPipe showStdOut .StdoutPipe os.StdoutPipe cmdArgs label "stdOut" trace with
  | (trace, some r) => (trace, r)
  | (trace, none) =>
    match showPipe showStdErr .StderrPipe os.StderrPipe cmdArgs label "stdErr" trace with
    | (trace, some r) => (trace, r)
    | (trace, none) =>
      match os.StdinPipe with
      | some err => (trace ++ [.StdinPipe], .ret (some err))
      | none =>
        match os.Start with
        | some err => (trace ++ [.StdinPipe, .Start], .ret (some err))
        | none => (trace ++ [.StdinPipe, .Start], .ret none)

/-- `videoWrite`: acquire the pipes and start the command.  Returns the error
of the Go function (`none`: the writer function was returned). -/
def videoWrite (os : HostAnswers) (cmdArgs : List String) (label : String)
    (showStdOut showStdErr : Bool) (trace : List Event) :
    List Event × Result (Option Error) :=
  match showPipe showStdOut .StdoutPipe os.StdoutPipe cmdArgs label "stdOut" trace with
  | (trace, some r) => (trace, r)
  | (trace, none) =>
    match showPipe showStdErr .StderrPipe os.StderrPipe cmdArgs label "stdErr" trace with
    | (trace, some r) => (trace, r)
    | (trace, none) =>
      match os.StdinPipe with
      | some err => (trace ++ [.StdinPipe], .ret (some err))
      | none =>
        match os.Start with
        | some err => (trace ++ [.StdinPipe, .Start], .ret (some err))
        | none => (trace ++ [.StdinPipe, .Start], .ret none)

/-- The variables captured by the reader closure a tee transform returns,
together with the trace of calls made on its process host so far. -/
structure TeeState where
  showStdErr : Bool
  envVarsSetFlag : Bool
  trace : List Event
deriving DecidableEq, Repr

/-- `CreateAudioCmdTeeTransformer`, given the argument list `cmdArgs` that
`newCmdSource` tokenized the command into.  The first component is the trace
of host calls made; the second the returned pair `(transform, error)`, the
transform being represented by the initial state of its closure. -/
def CreateAudioCmdTeeTransformer (os : HostAnswers) (cmdArgs : List String) (label : String)
    (showStdOut showStdErr : Bool) :
    List Event × Result (Option TeeState × Option Error) :=
  if cmdArgs.length = 0 || cmdArgs.head? = some "" then
    ([], .ret (none, some .errInvalidCommand))
  else
    match os.Open with
    | some err => ([.Open], .ret (none, some err))
    | none =>
      match audioWrite os cmdArgs label showStdOut showStdErr [.Open] with
      | (trace, .panic f) => (trace, .panic f)
      | (trace, .ret (some err)) => (trace, .ret (none, some err))
      | (trace, .ret none) =>
        (trace, .ret (some { showStdErr := showStdErr, envVarsSetFlag := false,
                             trace := trace }, none))

/-- `CreateVideoCmdTeeTransformer`, given the argument list `cmdArgs` that
`newCmdSource` tokenized the command into.  Same representation as
`CreateAudioCmdTeeTransformer`. -/
def CreateVideoCmdTeeTransformer (os : HostAnswers) (cmdArgs : List String) (label : String)
    (showStdOut showStdErr : Bool) :
    List Event × Result (Option TeeState × Option Error) :=
  if cmdArgs.length = 0 || cmdArgs.head? = some "" then
    ([], .ret (none, some .errInvalidCommand))
  else
    match os.Open with
    | some err => ([.Open], .ret (none, some err))
    | none =>
      match videoWrite os cmdArgs label showStdOut showStdErr [.Open] with
      | (trace, .panic f) => (trace, .panic f)
      | (trace, .ret (some err)) => (trace, .ret (none, some err))
      | (trace, .ret none) =>
        (trace, .ret (some { showStdErr := showStdErr, envVarsSetFlag := false,
                             trace := trace }, none))

/-- One call of a wrapped reader's `Read`, seen from outside: what the
upstream `r.Read()` returns in this call (frame and error; the release
function is discarded by the code) and what `stdIn.Write` answers to the
buffer it is handed. -/
structure Pull (F : Type) where
  frame : Option F
  err : Option Error
  write : List Byte → Option Error

/-- The tail of both readers: `err = write(bytes); if err != nil { Close(); return nil, err };
return frame, nil`. -/
def writeAndReturn {F : Type} (p : Pull F) (bytes : List Byte) (s : TeeState) :
    TeeState × Result (Option F × Option Error) :=
  match p.write bytes with
  | some err => ({ s with trace := s.trace ++ [.Write bytes, .Close] }, .ret (none, some err))
  | none => ({ s with trace := s.trace ++ [.Write bytes] }, .ret (p.frame, none))

/-- The reader closure of `CreateAudioCmdTeeTransformer`: one call of `Read`. -/
def audioRead (e : Endian) (p : Pull Audio) (s : TeeState) :
    TeeState × Result (Option Audio × Option Error) :=
  match p.err with
  | some err => ({ s with trace := s.trace ++ [.Close] }, .ret (none, some err))
  | none =>
    match getChunkBytes e p.frame with
    | .panic f => (s, .panic f)
    | .ret (bytes, _) =>
      if !s.envVarsSetFlag then
        match p.frame with
        | none => ({ s with envVarsSetFlag := true }, .panic .nilDereference)
        | some chunk =>
          writeAndReturn p bytes
            { s with
              envVarsSetFlag := true
              trace := s.trace ++
                [.addEnvVarsFromStruct (.chunkInfo chunk.ChunkInfo) s.showStdErr] }
      else writeAndReturn p bytes s

/-- The reader closure of `CreateVideoCmdTeeTransformer`: one call of `Read`. -/
def videoRead (p : Pull Image) (s : TeeState) :
    TeeState × Result (Option Image × Option Error) :=
  match p.err with
  | some err => ({ s with trace := s.trace ++ [.Close] }, .ret (none, some err))
  | none =>
    match getImageBytes p.frame with
    | (bytes, pixFormat, pixSubsampleRatio) =>
      if !s.envVarsSetFlag then
        match p.frame with
        | none => ({ s with envVarsSetFlag := true }, .panic .nilDereference)
        | some img =>
          writeAndReturn p bytes
            { s with
              envVarsSetFlag := true
              trace := s.trace ++
                [.addEnvVarsFromStruct
                  (.imgMetadata
                    { width := img.Bounds.Dx
                      height := img.Bounds.Dy
                      pixFormat := pixFormat
                      pixSubsampleRatio := pixSubsampleRatio })
                  s.showStdErr] }
      else writeAndReturn p bytes s

/-- Successive calls of `Read` on readers of one transform, oldest first:
the final state and the outcome of every call. -/
def audioReads (e : Endian) :
    List (Pull Audio) → TeeState → TeeState × List (Result (Option Audio × Option Error))
  | [], s => (s, [])
  | p :: ps, s =>
    let (s1, r) := audioRead e p s
    let (s2, rs) := audioReads e ps s1
    (s2, r :: rs)

/-- Successive calls of `Read` on readers of one video transform, oldest
first: the final state and the outcome of every call. -/
def videoReads :
    List (Pull Image) → TeeState → TeeState × List (Result (Option Image × Option Error))
  | [], s => (s, [])
  | p :: ps, s =>
    let (s1, r) := videoRead p s
    let (s2, rs) := videoReads ps s1
    (s2, r :: rs)

/-- The buffers handed to `stdIn.Write`, in call order. -/
def stdinWrites : List Event → List (List Byte)
  | [] => []
  | .Write bytes :: rest => bytes :: stdinWrites rest
  | _ :: rest => stdinWrites rest

/-- The arguments of the calls of `addEnvVarsFromStruct`, in call order. -/
def envCalls : List Event → List (EnvStruct × Bool)
  | [] => []
  | .addEnvVarsFromStruct props logEnvVars :: rest => (props, logEnvVars) :: envCalls rest
  | _ :: rest => envCalls rest

/-- The events a call appended to the trace: those of `after` beyond `before`. -/
def newEvents (before after : TeeState) : List Event :=
  after.trace.drop before.trace.length

/-! ## The driver wrapper -/

/-- `driver.State`. -/
inductive State where
  | StateClosed
  | StateOpened
  | StateRunning
deriving DecidableEq, Repr

/-- Modelled from the spec: `State.Update` of `state.go`, which `wrapper.go`
calls.  The transition to `next` is attempted by running the action `f`: a
call that is invalid for the current state is rejected with an error and `f`
is not run; otherwise `f` runs, on success the state becomes `next`, on
failure the prior state is kept and the error of `f` is returned.  Which
transitions are invalid is the parameter `invalid` (`none`: allowed).  The
action is a closure; `k` holds the variables it assigns.  Returns the new
state, the closure variables and the returned error. -/
def State.Update {κ : Type} (invalid : State → State → Option Error) (s next : State)
    (f : κ → κ × Option Error) (k : κ) : State × κ × Option Error :=
  match invalid s next with
  | some err => (s, k, some err)
  | none =>
    match f k with
    | (k1, none) => (next, k1, none)
    | (k1, some err) => (s, k1, some err)

/-- `adapterWrapper`: the wrapped adapter (the results of its `Open`, `Close`
and record routines), the id and the state.  `P` is `prop.Media`, `V` and `A`
are the non-nil `video.Reader` and `audio.Reader` values. -/
structure adapterWrapper (P V A : Type) where
  AdapterOpen : Option Error
  AdapterClose : Option Error
  VideoRecorder : P → Option V × Option Error
  AudioRecorder : P → Option A × Option Error
  id : String
  state : State

/-- `adapterWrapper.Status`. -/
def adapterWrapper.Status {P V A : Type} (w : adapterWrapper P V A) : State := w.state

/-- `adapterWrapper.Open`: returns what `state.Update` returns. -/
def adapterWrapper.Open {P V A : Type} (invalid : State → State → Option Error)
    (w : adapterWrapper P V A) : adapterWrapper P V A × Option Error :=
  match State.Update invalid w.state .StateOpened (fun u => (u, w.AdapterOpen)) () with
  | (st, _, err) => ({ w with state := st }, err)

/-- `adapterWrapper.Close`: returns what `state.Update` returns. -/
def adapterWrapper.Close {P V A : Type} (invalid : State → State → Option Error)
    (w : adapterWrapper P V A) : adapterWrapper P V A × Option Error :=
  match State.Update invalid w.state .StateClosed (fun u => (u, w.AdapterClose)) () with
  | (st, _, err) => ({ w with state := st }, err)

/-- `adapterWrapper.VideoRecord`.  The named results `r` and `err` start as
nil and are assigned only inside the closure handed to `state.Update`; the
value `state.Update` returns is dropped, and the function returns `r, err`. -/
def adapterWrapper.VideoRecord {P V A : Type} (invalid : State → State → Option Error)
    (w : adapterWrapper P V A) (p : P) : adapterWrapper P V A × Option V × Option Error :=
  match State.Update invalid w.state .StateRunning
      (fun _ => match w.VideoRecorder p with | (r, err) => ((r, err), err))
      ((none, none) : Option V × Option Error) with
  | (st, (r, err), _) => ({ w with state := st }, r, err)

/-- `adapterWrapper.AudioRecord`.  Same shape as `VideoRecord`. -/
def adapterWrapper.AudioRecord {P V A : Type} (invalid : State → State → Option Error)
    (w : adapterWrapper P V A) (p : P) : adapterWrapper P V A × Option A × Option Error :=
  match State.Update invalid w.state .StateRunning
      (fun _ => match w.AudioRecorder p with | (r, err) => ((r, err), err))
      ((none, none) : Option A × Option Error) with
  | (st, (r, err), _) => ({ w with state := st }, r, err)

/-! ## The common shape of the two readers -/

/-- The byte buffer `audioRead` hands to the write: the first result of
`getChunkBytes`. -/
def audioSerialize (e : Endian) (chunk : Option Audio) : Result (List Byte) :=
  match getChunkBytes e chunk with
  | .panic f => .panic f
  | .ret (bytes, _) => .ret bytes

/-- The struct `audioRead` hands to `addEnvVarsFromStruct`. -/
def audioEnv (chunk : Audio) : EnvStruct := .chunkInfo chunk.ChunkInfo

/-- The byte buffer `videoRead` hands to the write: the first result of
`getImageBytes`. -/
def videoSerialize (img : Option Image) : Result (List Byte) :=
  .ret (getImageBytes img).1

/-- The struct `videoRead` hands to `addEnvVarsFromStruct`. -/
def videoEnv (img : Image) : EnvStruct :=
  .imgMetadata
    { width := img.Bounds.Dx
      height := img.Bounds.Dy
      pixFormat := (getImageBytes (some img)).2.1
      pixSubsampleRatio := (getImageBytes (some img)).2.2 }

/-- The shape `audioRead` and `videoRead` share, with the serializer and the
metadata struct as parameters (`audioRead_eq_teeRead`, `videoRead_eq_teeRead`). -/
def teeRead {F : Type} (ser : Option F → Result (List Byte)) (md : F → EnvStruct)
    (p : Pull F) (s : TeeState) : TeeState × Result (Option F × Option Error) :=
  match p.err with
  | some err => ({ s with trace := s.trace ++ [.Close] }, .ret (none, some err))
  | none =>
    match ser p.frame with
    | .panic f => (s, .panic f)
    | .ret bytes =>
      if !s.envVarsSetFlag then
        match p.frame with
        | none => ({ s with envVarsSetFlag := true }, .panic .nilDereference)
        | some fr =>
          writeAndReturn p bytes
            { s with
              envVarsSetFlag := true
              trace := s.trace ++ [.addEnvVarsFromStruct (md fr) s.showStdErr] }
      else writeAndReturn p bytes s

/-- Successive calls of `teeRead`, oldest first. -/
def teeReads {F : Type} (ser : Option F → Result (List Byte)) (md : F → EnvStruct) :
    List (Pull F) → TeeState → TeeState × List (Result (Option F × Option Error))
  | [], s => (s, [])
  | p :: ps, s =>
    let (s1, r) := teeRead ser md p s
    let (s2, rs) := teeReads ser md ps s1
    (s2, r :: rs)

/-- The events the first successful pull adds before its write: the call of
`addEnvVarsFromStruct`, when the flag is still unset. -/
def envEvents {F : Type} (md : F → EnvStruct) (p : Pull F) (s : TeeState) : List Event :=
  if s.envVarsSetFlag then []
  else
    match p.frame with
    | some fr => [.addEnvVarsFromStruct (md fr) s.showStdErr]
    | none => []

/-! ## Sample inputs -/

/-- A host on which every call of the construction phase succeeds. -/
def sampleAnswers : HostAnswers :=
  { Open := none, StdoutPipe := none, StderrPipe := none, StdinPipe := none, Start := none }

def sampleInfo : ChunkInfo := { Len := 2, Channels := 1, SamplingRate := 44100 }

/-- A mono interleaved 16-bit chunk holding the samples `1, -2`. -/
def sampleChunk : Audio :=
  .Int16Interleaved [⟨1, by decide⟩, ⟨-2, by decide⟩] sampleInfo

/-- A chunk of a type `getChunkBytes` does not name. -/
def sampleOtherChunk : Audio := .other 7 sampleInfo

/-- A 2x2 4:2:0 planar image. -/
def sampleImage : Image :=
  .YCbCr [1, 2, 3, 4] [5] [6] 2 1 2 { Min := { X := 0, Y := 0 }, Max := { X := 2, Y := 2 } }

/-- An image of a type `getImageBytes` does not name. -/
def sampleOtherImage : Image :=
  .other 3 { Min := { X := 0, Y := 0 }, Max := { X := 1, Y := 1 } }

/-- A pull that delivers `frame`, with a stdin write that succeeds. -/
def samplePull {F : Type} (frame : F) : Pull F :=
  { frame := some frame, err := none, write := fun _ => none }

/-- A pull on which the upstream read fails. -/
def sampleFailedPull (F : Type) : Pull F :=
  { frame := none, err := some (.other 1), write := fun _ => none }

/-- A pull that delivers `frame`, with a stdin write that fails. -/
def sampleWriteFailedPull {F : Type} (frame : F) : Pull F :=
  { frame := some frame, err := none, write := fun _ => some (.other 3) }

/-- The audio transform built for the command `cat`, with both `show` flags off. -/
def sampleTee : TeeState :=
  { showStdErr := false, envVarsSetFlag := false, trace := [.Open, .StdinPipe, .Start] }

/-- A validity rule under which a device that is closed may not record. -/
def sampleInvalid : State → State → Option Error
  | .StateClosed, .StateRunning => some (.other 2)
  | _, _ => none

/-- A wrapper as `wrapAdapter` makes it (state `StateClosed`), around an
adapter whose routines all succeed. -/
def sampleWrapper : adapterWrapper Unit Nat Nat :=
  { AdapterOpen := none
    AdapterClose := none
    VideoRecorder := fun _ => (some 1, none)
    AudioRecorder := fun _ => (some 2, none)
    id := "4f1c"
    state := .StateClosed }

/-! ## Image representations -/

/-- The dynamic type of a non-nil `image.Image`: one of the ten types the
type switch of `getImageBytes` names, or another type (told apart by `tag`). -/
inductive ImageKind where
  | YCbCr
  | CMYK
  | RGBA
  | NRGBA
  | RGBA64
  | NRGBA64
  | Gray
  | Gray16
  | Alpha
  | Alpha16
  | other (tag : Nat)
deriving DecidableEq, Repr

/-- The dynamic type of an image value. -/
def Image.kind : Image → ImageKind
  | .YCbCr _ _ _ _ _ _ _ => .YCbCr
  | .CMYK _ _ _ => .CMYK
  | .RGBA _ _ _ => .RGBA
  | .NRGBA _ _ _ => .NRGBA
  | .RGBA64 _ _ _ => .RGBA64
  | .NRGBA64 _ _ _ => .NRGBA64
  | .Gray _ _ _ => .Gray
  | .Gray16 _ _ _ => .Gray16
  | .Alpha _ _ _ => .Alpha
  | .Alpha16 _ _ _ => .Alpha16
  | .other tag _ => .other tag

/-- The image types named by the cases of the type switch of `getImageBytes`,
in source order. -/
def namedKinds : List ImageKind :=
  [.YCbCr, .CMYK, .RGBA, .NRGBA, .RGBA64, .NRGBA64, .Gray, .Gray16, .Alpha, .Alpha16]

/-- An image of the given named type with no pixels and empty bounds (any
image of another type for `other`). -/
def blankImage : ImageKind → Image
  | .YCbCr => .YCbCr [] [] [] 0 0 0 { Min := { X := 0, Y := 0 }, Max := { X := 0, Y := 0 } }
  | .CMYK => .CMYK [] 0 { Min := { X := 0, Y := 0 }, Max := { X := 0, Y := 0 } }
  | .RGBA => .RGBA [] 0 { Min := { X := 0, Y := 0 }, Max := { X := 0, Y := 0 } }
  | .NRGBA => .NRGBA [] 0 { Min := { X := 0, Y := 0 }, Max := { X := 0, Y := 0 } }
  | .RGBA64 => .RGBA64 [] 0 { Min := { X := 0, Y := 0 }, Max := { X := 0, Y := 0 } }
  | .NRGBA64 => .NRGBA64 [] 0 { Min := { X := 0, Y := 0 }, Max := { X := 0, Y := 0 } }
  | .Gray => .Gray [] 0 { Min := { X := 0, Y := 0 }, Max := { X := 0, Y := 0 } }
  | .Gray16 => .Gray16 [] 0 { Min := { X := 0, Y := 0 }, Max := { X := 0, Y := 0 } }
  | .Alpha => .Alpha [] 0 { Min := { X := 0, Y := 0 }, Max := { X := 0, Y := 0 } }
  | .Alpha16 => .Alpha16 [] 0 { Min := { X := 0, Y := 0 }, Max := { X := 0, Y := 0 } }
  | .other tag => .other tag { Min := { X := 0, Y := 0 }, Max := { X := 0, Y := 0 } }

/-! ## Serializers: lemmas -/

theorem int16OfBytes_int16Bytes (e : Endian) (x : Int16) :
    ∃ b0 b1, int16Bytes e x = [b0, b1] ∧ int16OfBytes e b0 b1 = x := by
  obtain ⟨v, hlo, hhi⟩ := x
  cases e
  · refine ⟨_, _, rfl, ?_⟩
    apply Subtype.ext
    simp only [int16OfBytes, Int16.ofBits, Int16.bits]
    omega
  · refine ⟨_, _, rfl, ?_⟩
    apply Subtype.ext
    simp only [int16OfBytes, Int16.ofBits, Int16.bits]
    omega

theorem int16sOfBytes_flatten (e : Endian) (s : List Int16) :
    int16sOfBytes e ((s.map (int16Bytes e)).flatten) = s := by
  induction s with
  | nil => rfl
  | cons x xs ih =>
    obtain ⟨b0, b1, hb, hx⟩ := int16OfBytes_int16Bytes e x
    simp only [List.map_cons, List.flatten_cons, hb, List.cons_append, List.nil_append,
      int16sOfBytes, hx, ih]

theorem length_int16Bytes_flatten (e : Endian) (s : List Int16) :
    ((s.map (int16Bytes e)).flatten).length = BYTES_IN_INT16 * s.length := by
  induction s with
  | nil => rfl
  | cons x xs ih =>
    obtain ⟨b0, b1, hb, _⟩ := int16OfBytes_int16Bytes e x
    simp only [List.map_cons, List.flatten_cons, hb, List.length_append, List.length_cons,
      List.length_nil, ih, BYTES_IN_INT16]
    omega

/-- Round trip of the 16-bit cast on a non-empty sample sequence: the buffer
has `2 * len(s)` bytes and reads back as `s`. -/
theorem int16_roundtrip_of_ne_nil (e : Endian) (s : List Int16) (size : ChunkInfo)
    (hs : s ≠ []) :
    ∃ bytes, getChunkBytes e (some (.Int16Interleaved s size)) = .ret (bytes, "Int16Interleaved")
      ∧ bytes.length = 2 * s.length
      ∧ UnsafeCastBytesToInt16s e bytes = .ret s := by
  cases s with
  | nil => exact absurd rfl hs
  | cons x xs =>
    refine ⟨((x :: xs).map (int16Bytes e)).flatten, rfl, ?_, ?_⟩
    · simpa [BYTES_IN_INT16] using length_int16Bytes_flatten e (x :: xs)
    · obtain ⟨b0, b1, hb, _⟩ := int16OfBytes_int16Bytes e x
      have h := int16sOfBytes_flatten e (x :: xs)
      simp only [List.map_cons, List.flatten_cons, hb, List.cons_append, List.nil_append] at h ⊢
      simp only [UnsafeCastBytesToInt16s, h]

/-! ## Readers: lemmas -/

theorem audioRead_eq_teeRead (e : Endian) (p : Pull Audio) (s : TeeState) :
    audioRead e p s = teeRead (audioSerialize e) audioEnv p s := by
  obtain ⟨frame, perr, write⟩ := p
  cases perr with
  | some err => rfl
  | none =>
    simp only [audioRead, teeRead, audioSerialize, audioEnv]
    cases getChunkBytes e frame with
    | panic f => rfl
    | ret a => obtain ⟨bytes, tag⟩ := a; cases frame <;> rfl

theorem videoRead_eq_teeRead (p : Pull Image) (s : TeeState) :
    videoRead p s = teeRead videoSerialize videoEnv p s := by
  obtain ⟨frame, perr, write⟩ := p
  cases perr with
  | some err => rfl
  | none =>
    cases frame with
    | none => rfl
    | some img => rfl

theorem audioReads_eq_teeReads (e : Endian) (ps : List (Pull Audio)) (s : TeeState) :
    audioReads e ps s = teeReads (audioSerialize e) audioEnv ps s := by
  induction ps generalizing s with
  | nil => rfl
  | cons p ps ih => simp only [audioReads, teeReads, audioRead_eq_teeRead, ih]

theorem videoReads_eq_teeReads (ps : List (Pull Image)) (s : TeeState) :
    videoReads ps s = teeReads videoSerialize videoEnv ps s := by
  induction ps generalizing s with
  | nil => rfl
  | cons p ps ih => simp only [videoReads, teeReads, videoRead_eq_teeRead, ih]

theorem stdinWrites_append (a b : List Event) :
    stdinWrites (a ++ b) = stdinWrites a ++ stdinWrites b := by
  induction a with
  | nil => rfl
  | cons ev rest ih => cases ev <;> simp [stdinWrites, ih]

theorem envCalls_append (a b : List Event) :
    envCalls (a ++ b) = envCalls a ++ envCalls b := by
  induction a with
  | nil => rfl
  | cons ev rest ih => cases ev <;> simp [envCalls, ih]

/-- A call of `teeRead` that returns a nil error: what it returned and what
it did. -/
theorem teeRead_ok {F : Type} (ser : Option F → Result (List Byte)) (md : F → EnvStruct)
    (p : Pull F) (s s1 : TeeState) (fr : Option F)
    (h : teeRead ser md p s = (s1, .ret (fr, none))) :
    fr = p.frame ∧ p.err = none ∧ s1.envVarsSetFlag = true ∧ s1.showStdErr = s.showStdErr ∧
      (s.envVarsSetFlag = false → p.frame ≠ none) ∧
      ∃ bytes, ser p.frame = .ret bytes ∧ p.write bytes = none ∧
        s1.trace = s.trace ++ envEvents md p s ++ [.Write bytes] := by
  obtain ⟨frame, perr, write⟩ := p
  obtain ⟨sse, flag, tr⟩ := s
  cases perr with
  | some err => simp [teeRead] at h
  | none =>
    cases frame with
    | none =>
      cases hs : ser none with
      | panic f => simp [teeRead, hs] at h
      | ret bytes =>
        cases flag with
        | false => simp [teeRead, hs] at h
        | true =>
          cases hw : write bytes with
          | some err => simp [teeRead, hs, writeAndReturn, hw] at h
          | none =>
            simp [teeRead, hs, writeAndReturn, hw] at h
            obtain ⟨h1, h2⟩ := h
            subst h1 h2
            simp [envEvents, hw]
    | some f =>
      cases hs : ser (some f) with
      | panic f => simp [teeRead, hs] at h
      | ret bytes =>
        cases hw : write bytes with
        | some err => cases flag <;> simp [teeRead, hs, writeAndReturn, hw] at h
        | none =>
          cases flag <;>
          · simp [teeRead, hs, writeAndReturn, hw] at h
            obtain ⟨h1, h2⟩ := h
            subst h1 h2
            simp [envEvents, hw]

/-- Every way a call of `teeRead` can return an error, the `Close` that goes
with it, and the absence of a write when the upstream read failed. -/
theorem teeRead_errors {F : Type} (ser : Option F → Result (List Byte)) (md : F → EnvStruct)
    (p : Pull F) (s : TeeState) :
    (∀ fr err, (teeRead ser md p s).2 = .ret (fr, some err) ↔
        fr = none ∧ (p.err = some err ∨
          (p.err = none ∧ ∃ bytes,
            stdinWrites (newEvents s (teeRead ser md p s).1) = [bytes] ∧
            p.write bytes = some err))) ∧
    (∀ fr err, (teeRead ser md p s).2 = .ret (fr, some err) →
        Event.Close ∈ newEvents s (teeRead ser md p s).1) ∧
    (p.err ≠ none → stdinWrites (newEvents s (teeRead ser md p s).1) = []) := by
  obtain ⟨frame, perr, write⟩ := p
  obtain ⟨sse, flag, tr⟩ := s
  cases perr with
  | some err0 =>
    simp [teeRead, newEvents, stdinWrites]
    intro fr
    exact eq_comm
  | none =>
    cases frame with
    | none =>
      cases hs : ser none with
      | panic f => simp [teeRead, hs, newEvents, stdinWrites]
      | ret bytes =>
        cases flag with
        | false => simp [teeRead, hs, newEvents, stdinWrites]
        | true =>
          cases hw : write bytes with
          | some err0 =>
            simp [teeRead, hs, writeAndReturn, hw, newEvents, stdinWrites]
            intro fr
            exact eq_comm
          | none => simp [teeRead, hs, writeAndReturn, hw, newEvents, stdinWrites]
    | some f =>
      cases hs : ser (some f) with
      | panic f => simp [teeRead, hs, newEvents, stdinWrites]
      | ret bytes =>
        cases hw : write bytes with
        | some err0 =>
          cases flag <;>
          · simp [teeRead, hs, writeAndReturn, hw, newEvents, stdinWrites]
            intro fr
            exact eq_comm
        | none =>
          cases flag <;> simp [teeRead, hs, writeAndReturn, hw, newEvents, stdinWrites]

/-- A call of `teeRead` whose upstream read succeeds, whose frame serializes
to `bytes` (the frame being non-nil when the flag is still unset) and whose
write of `bytes` fails with `err`: it returns a nil frame and `err`, the
buffer is the one write of the call, and `Close` is the last call made on the
host. -/
theorem teeRead_write_failure {F : Type} (ser : Option F → Result (List Byte))
    (md : F → EnvStruct) (p : Pull F) (s : TeeState) (bytes : List Byte) (err : Error)
    (herr : p.err = none) (hser : ser p.frame = .ret bytes)
    (hfr : s.envVarsSetFlag = true ∨ p.frame ≠ none) (hw : p.write bytes = some err) :
    (teeRead ser md p s).2 = .ret (none, some err) ∧
    Event.Close ∈ newEvents s (teeRead ser md p s).1 ∧
    (newEvents s (teeRead ser md p s).1).getLast? = some Event.Close ∧
    stdinWrites (newEvents s (teeRead ser md p s).1) = [bytes] := by
  obtain ⟨frame, perr, write⟩ := p
  obtain ⟨sse, flag, tr⟩ := s
  simp only at herr hser hfr hw
  subst herr
  cases frame with
  | none =>
    cases flag with
    | false => simp at hfr
    | true => simp [teeRead, hser, writeAndReturn, hw, newEvents, stdinWrites]
  | some f =>
    cases flag <;> simp [teeRead, hser, writeAndReturn, hw, newEvents, stdinWrites]

/-- A call of `teeRead` whose upstream read fails with `err`: it returns a
nil frame and `err`, and `Close` is the only call made on the host. -/
theorem teeRead_upstream_failure {F : Type} (ser : Option F → Result (List Byte))
    (md : F → EnvStruct) (p : Pull F) (s : TeeState) (err : Error)
    (herr : p.err = some err) :
    (teeRead ser md p s).2 = .ret (none, some err) ∧
    newEvents s (teeRead ser md p s).1 = [Event.Close] := by
  obtain ⟨frame, perr, write⟩ := p
  obtain ⟨sse, flag, tr⟩ := s
  simp only at herr
  subst herr
  simp [teeRead, newEvents]

theorem stdinWrites_envEvents {F : Type} (md : F → EnvStruct) (p : Pull F) (s : TeeState) :
    stdinWrites (envEvents md p s) = [] := by
  unfold envEvents
  cases s.envVarsSetFlag <;> cases p.frame <;> rfl

/-- A run of calls that all return a nil error: every call returns the frame
of its pull, the events added hold one write per pull, in pull order, of the
serialized frame, and `addEnvVarsFromStruct` is called by the first pull at
most. -/
theorem teeReads_ok {F : Type} (ser : Option F → Result (List Byte)) (md : F → EnvStruct)
    (ps : List (Pull F)) (s s1 : TeeState) (rs : List (Result (Option F × Option Error)))
    (h : teeReads ser md ps s = (s1, rs))
    (hok : ∀ r ∈ rs, ∃ fr, r = .ret (fr, none)) :
    rs = ps.map (fun p => .ret (p.frame, none)) ∧
    ∃ evs, s1.trace = s.trace ++ evs ∧
      List.Forall₂ (fun p w => ser p.frame = .ret w) ps (stdinWrites evs) ∧
      (match ps with
        | [] => envCalls evs = []
        | p :: _ => envCalls evs = envCalls (envEvents md p s) ∧
            (s.envVarsSetFlag = false → p.frame ≠ none)) := by
  induction ps generalizing s rs with
  | nil =>
    simp only [teeReads, Prod.mk.injEq] at h
    obtain ⟨h1, h2⟩ := h
    subst h1 h2
    exact ⟨rfl, [], by simp, by simp [stdinWrites], rfl⟩
  | cons p ps ih =>
    simp only [teeReads] at h
    cases hstep : teeRead ser md p s with
    | mk sa r =>
      cases hrest : teeReads ser md ps sa with
      | mk sb rs1 =>
        rw [hstep, hrest] at h
        simp only [Prod.mk.injEq] at h
        obtain ⟨h1, h2⟩ := h
        subst h1 h2
        obtain ⟨fr, hr⟩ := hok r (by simp)
        subst hr
        obtain ⟨hfr, _, hflag, _, hne, bytes, hser, _, htr⟩ := teeRead_ok ser md p s sa fr hstep
        obtain ⟨hrs, evs, hevs, hall, henv⟩ :=
          ih sa rs1 hrest (fun r hr => hok r (List.mem_cons_of_mem _ hr))
        refine ⟨by simp [hfr, hrs], envEvents md p s ++ [.Write bytes] ++ evs, ?_, ?_, ?_⟩
        · rw [hevs, htr]; simp
        · simp only [stdinWrites_append, stdinWrites_envEvents, stdinWrites, List.nil_append,
            List.singleton_append]
          exact List.Forall₂.cons hser hall
        · have hnone : envCalls evs = [] := by
            cases ps with
            | nil => exact henv
            | cons q qs => rw [henv.1]; simp [envEvents, hflag, envCalls]
          exact ⟨by simp [envCalls_append, hnone, envCalls], hne⟩

/-- If a call of `teeRead` finds no upstream error, a frame whose
serialization returns, and a write that succeeds, it returns that frame and a
nil error. -/
theorem teeRead_returns {F : Type} (ser : Option F → Result (List Byte)) (md : F → EnvStruct)
    (p : Pull F) (s : TeeState) (fr : F) (bytes : List Byte)
    (herr : p.err = none) (hfr : p.frame = some fr) (hser : ser (some fr) = .ret bytes)
    (hw : p.write bytes = none) :
    (teeRead ser md p s).2 = .ret (some fr, none) := by
  obtain ⟨frame, perr, write⟩ := p
  obtain ⟨sse, flag, tr⟩ := s
  simp only at herr hfr hw
  subst herr hfr
  cases flag <;> simp [teeRead, hser, writeAndReturn, hw]

theorem showPipe_trace (show_ : Bool) (pipe : Event) (answer : Option Error)
    (cmdArgs : List String) (label stream : String) (trace : List Event)
    (hpipe : envCalls [pipe] = [] ∧ stdinWrites [pipe] = []) :
    ∃ evs, (showPipe show_ pipe answer cmdArgs label stream trace).1 = trace ++ evs ∧
      envCalls evs = [] ∧ stdinWrites evs = [] := by
  obtain ⟨h1, h2⟩ := hpipe
  unfold showPipe
  cases show_ with
  | false => exact ⟨[], by simp, rfl, rfl⟩
  | true =>
    cases answer with
    | some err => exact ⟨[pipe], rfl, h1, h2⟩
    | none =>
      cases cmdArgs with
      | nil => exact ⟨[pipe], rfl, h1, h2⟩
      | cons arg0 rest =>
        refine ⟨[pipe, .logStdIoWithPrefix (label ++ ":" ++ arg0 ++ " " ++ stream ++ "> ")],
          rfl, ?_, ?_⟩
        · have := envCalls_append [pipe] [.logStdIoWithPrefix
            (label ++ ":" ++ arg0 ++ " " ++ stream ++ "> ")]
          simpa [h1, envCalls] using this
        · have := stdinWrites_append [pipe] [.logStdIoWithPrefix
            (label ++ ":" ++ arg0 ++ " " ++ stream ++ "> ")]
          simpa [h2, stdinWrites] using this

/-- The construction phase calls neither `addEnvVarsFromStruct` nor the
stdin write. -/
theorem audioWrite_trace (os : HostAnswers) (cmdArgs : List String) (label : String)
    (showStdOut showStdErr : Bool) (trace : List Event) :
    ∃ evs, (audioWrite os cmdArgs label showStdOut showStdErr trace).1 = trace ++ evs ∧
      envCalls evs = [] ∧ stdinWrites evs = [] := by
  obtain ⟨e1, h1, h1e, h1w⟩ :=
    showPipe_trace showStdOut .StdoutPipe os.StdoutPipe cmdArgs label "stdOut" trace ⟨rfl, rfl⟩
  unfold audioWrite
  cases hp1 : showPipe showStdOut .StdoutPipe os.StdoutPipe cmdArgs label "stdOut" trace with
  | mk t1 r1 =>
    rw [hp1] at h1
    simp only at h1
    subst h1
    cases r1 with
    | some r => exact ⟨e1, rfl, h1e, h1w⟩
    | none =>
      obtain ⟨e2, h2, h2e, h2w⟩ :=
        showPipe_trace showStdErr .StderrPipe os.StderrPipe cmdArgs label "stdErr"
          (trace ++ e1) ⟨rfl, rfl⟩
      cases hp2 : showPipe showStdErr .StderrPipe os.StderrPipe cmdArgs label "stdErr"
          (trace ++ e1) with
      | mk t2 r2 =>
        rw [hp2] at h2
        simp only at h2
        subst h2
        cases r2 with
        | some r =>
          exact ⟨e1 ++ e2, by simp [hp2], by simp [envCalls_append, h1e, h2e],
            by simp [stdinWrites_append, h1w, h2w]⟩
        | none =>
          cases os.StdinPipe with
          | some err =>
            exact ⟨e1 ++ e2 ++ [.StdinPipe], by simp [hp2],
              by simp [envCalls_append, h1e, h2e, envCalls],
              by simp [stdinWrites_append, h1w, h2w, stdinWrites]⟩
          | none =>
            cases os.Start with
            | some err =>
              exact ⟨e1 ++ e2 ++ [.StdinPipe, .Start], by simp [hp2],
                by simp [envCalls_append, h1e, h2e, envCalls],
                by simp [stdinWrites_append, h1w, h2w, stdinWrites]⟩
            | none =>
              exact ⟨e1 ++ e2 ++ [.StdinPipe, .Start], by simp [hp2],
                by simp [envCalls_append, h1e, h2e, envCalls],
                by simp [stdinWrites_append, h1w, h2w, stdinWrites]⟩

theorem videoWrite_eq_audioWrite (os : HostAnswers) (cmdArgs : List String) (label : String)
    (showStdOut showStdErr : Bool) (trace : List Event) :
    videoWrite os cmdArgs label showStdOut showStdErr trace =
      audioWrite os cmdArgs label showStdOut showStdErr trace := rfl

/-- A transform that was constructed starts with the flag unset, with the
`showStdErr` it was given, and with no call of `addEnvVarsFromStruct` made. -/
theorem CreateAudio_ok (os : HostAnswers) (cmdArgs : List String) (label : String)
    (showStdOut showStdErr : Bool) (t : List Event) (s0 : TeeState)
    (h : CreateAudioCmdTeeTransformer os cmdArgs label showStdOut showStdErr =
      (t, .ret (some s0, none))) :
    s0.envVarsSetFlag = false ∧ s0.showStdErr = showStdErr ∧ envCalls s0.trace = [] := by
  obtain ⟨evs, hevs, henv, _⟩ := audioWrite_trace os cmdArgs label showStdOut showStdErr [.Open]
  unfold CreateAudioCmdTeeTransformer at h
  split at h
  · simp at h
  · cases hopen : os.Open with
    | some err => simp [hopen] at h
    | none =>
      cases haw : audioWrite os cmdArgs label showStdOut showStdErr [.Open] with
      | mk tr r =>
        rw [haw] at hevs
        simp only at hevs
        cases r with
        | panic f => simp [hopen, haw] at h
        | ret oe =>
          cases oe with
          | some err => simp [hopen, haw] at h
          | none =>
            simp only [hopen, haw, Prod.mk.injEq, Result.ret.injEq, Option.some.injEq,
              and_true] at h
            obtain ⟨_, h2⟩ := h
            subst h2
            refine ⟨rfl, rfl, ?_⟩
            simp only [hevs]
            rw [envCalls_append, henv]
            rfl

theorem CreateVideo_eq_CreateAudio (os : HostAnswers) (cmdArgs : List String) (label : String)
    (showStdOut showStdErr : Bool) :
    CreateVideoCmdTeeTransformer os cmdArgs label showStdOut showStdErr =
      CreateAudioCmdTeeTransformer os cmdArgs label showStdOut showStdErr := rfl

theorem forall₂_eq_map {α β : Type} (f : α → β) (xs : List α) (ys : List β)
    (h : List.Forall₂ (fun x y => f x = y) xs ys) : ys = xs.map f := by
  induction h with
  | nil => rfl
  | cons hxy _ ih => simp [hxy, ih]

theorem newEvents_append (s s1 : TeeState) (evs : List Event) (h : s1.trace = s.trace ++ evs) :
    newEvents s s1 = evs := by
  simp [newEvents, h]

/-! ## The claims -/

/-- C1 (passthrough identity): whenever a call of the wrapped audio reader or
of the wrapped video reader returns a nil error, the frame it returns is the
frame the upstream read returned in that call, and that upstream read had
returned a nil error. -/
theorem passthrough_identity :
    (∀ (e : Endian) (p : Pull Audio) (s s1 : TeeState) (frame : Option Audio),
      audioRead e p s = (s1, .ret (frame, none)) → frame = p.frame ∧ p.err = none) ∧
    (∀ (p : Pull Image) (s s1 : TeeState) (frame : Option Image),
      videoRead p s = (s1, .ret (frame, none)) → frame = p.frame ∧ p.err = none) := by
  constructor
  · intro e p s s1 frame h
    rw [audioRead_eq_teeRead] at h
    obtain ⟨h1, h2, _⟩ := teeRead_ok _ _ p s s1 frame h
    exact ⟨h1, h2⟩
  · intro p s s1 frame h
    rw [videoRead_eq_teeRead] at h
    obtain ⟨h1, h2, _⟩ := teeRead_ok _ _ p s s1 frame h
    exact ⟨h1, h2⟩

/-- C1 at the sample chunk and the sample image, each read first through a
fresh transform. -/
theorem passthrough_identity_witness :
    (some sampleChunk = (samplePull sampleChunk).frame ∧ (samplePull sampleChunk).err = none) ∧
    (some sampleImage = (samplePull sampleImage).frame ∧ (samplePull sampleImage).err = none) :=
  ⟨passthrough_identity.1 .little (samplePull sampleChunk) sampleTee
      (audioRead .little (samplePull sampleChunk) sampleTee).1 (some sampleChunk) (by rfl),
   passthrough_identity.2 (samplePull sampleImage) sampleTee
      (videoRead (samplePull sampleImage) sampleTee).1 (some sampleImage) (by rfl)⟩

/-- C2 (mirroring order): when every call of a run of `Read`s returns a nil
error, the buffers handed to the stdin write during the run are, one per pull
and in pull order, the serialized frames of the pulls (`getChunkBytes` for
audio, `getImageBytes` for video). -/
theorem mirroring_order :
    (∀ (e : Endian) (ps : List (Pull Audio)) (s s1 : TeeState)
        (rs : List (Result (Option Audio × Option Error))),
      audioReads e ps s = (s1, rs) → (∀ r ∈ rs, ∃ fr, r = .ret (fr, none)) →
      List.Forall₂ (fun p w => ∃ tag, getChunkBytes e p.frame = .ret (w, tag)) ps
        (stdinWrites (newEvents s s1))) ∧
    (∀ (ps : List (Pull Image)) (s s1 : TeeState)
        (rs : List (Result (Option Image × Option Error))),
      videoReads ps s = (s1, rs) → (∀ r ∈ rs, ∃ fr, r = .ret (fr, none)) →
      stdinWrites (newEvents s s1) = ps.map (fun p => (getImageBytes p.frame).1)) := by
  constructor
  · intro e ps s s1 rs h hok
    rw [audioReads_eq_teeReads] at h
    obtain ⟨_, evs, hevs, hall, _⟩ := teeReads_ok _ _ ps s s1 rs h hok
    rw [newEvents_append s s1 evs hevs]
    refine hall.imp ?_
    intro p w hser
    unfold audioSerialize at hser
    cases hg : getChunkBytes e p.frame with
    | panic f => simp [hg] at hser
    | ret a =>
      obtain ⟨bytes, tag⟩ := a
      simp only [hg, Result.ret.injEq] at hser
      exact ⟨tag, by rw [hser]⟩
  · intro ps s s1 rs h hok
    rw [videoReads_eq_teeReads] at h
    obtain ⟨_, evs, hevs, hall, _⟩ := teeReads_ok _ _ ps s s1 rs h hok
    rw [newEvents_append s s1 evs hevs]
    apply forall₂_eq_map
    refine hall.imp ?_
    intro p w hser
    simpa [videoSerialize] using hser

/-- C2 at a run of three pulls through the sample transform (the sample
chunk, a chunk of another type, the sample chunk again; the sample image
twice). -/
theorem mirroring_order_witness :
    List.Forall₂ (fun p w => ∃ tag, getChunkBytes .little p.frame = .ret (w, tag))
        [samplePull sampleChunk, samplePull sampleOtherChunk, samplePull sampleChunk]
        (stdinWrites (newEvents sampleTee
          (audioReads .little
            [samplePull sampleChunk, samplePull sampleOtherChunk, samplePull sampleChunk]
            sampleTee).1)) ∧
    stdinWrites (newEvents sampleTee
        (videoReads [samplePull sampleImage, samplePull sampleImage] sampleTee).1) =
      [samplePull sampleImage, samplePull sampleImage].map
        (fun p => (getImageBytes p.frame).1) :=
  ⟨mirroring_order.1 .little _ sampleTee _ _ rfl (by simp),
   mirroring_order.2 _ sampleTee _ _ rfl (by simp)⟩

/-- C3 (environment single-set): on a transform that was constructed, after
any non-empty run of `Read`s that all return a nil error,
`addEnvVarsFromStruct` has been called exactly once, with the metadata of the
frame of the first pull: its `ChunkInfo` for audio; its width, height,
pixel-format tag and subsampling descriptor for video. -/
theorem environment_single_set :
    (∀ (os : HostAnswers) (cmdArgs : List String) (label : String)
        (showStdOut showStdErr : Bool) (e : Endian) (t : List Event) (s0 s1 : TeeState)
        (p : Pull Audio) (ps : List (Pull Audio))
        (rs : List (Result (Option Audio × Option Error))),
      CreateAudioCmdTeeTransformer os cmdArgs label showStdOut showStdErr =
        (t, .ret (some s0, none)) →
      audioReads e (p :: ps) s0 = (s1, rs) → (∀ r ∈ rs, ∃ fr, r = .ret (fr, none)) →
      ∃ chunk, p.frame = some chunk ∧
        envCalls s1.trace = [(.chunkInfo chunk.ChunkInfo, showStdErr)]) ∧
    (∀ (os : HostAnswers) (cmdArgs : List String) (label : String)
        (showStdOut showStdErr : Bool) (t : List Event) (s0 s1 : TeeState)
        (p : Pull Image) (ps : List (Pull Image))
        (rs : List (Result (Option Image × Option Error))),
      CreateVideoCmdTeeTransformer os cmdArgs label showStdOut showStdErr =
        (t, .ret (some s0, none)) →
      videoReads (p :: ps) s0 = (s1, rs) → (∀ r ∈ rs, ∃ fr, r = .ret (fr, none)) →
      ∃ img, p.frame = some img ∧
        envCalls s1.trace =
          [(.imgMetadata
              { width := img.Bounds.Dx
                height := img.Bounds.Dy
                pixFormat := (getImageBytes (some img)).2.1
                pixSubsampleRatio := (getImageBytes (some img)).2.2 },
            showStdErr)]) := by
  constructor
  · intro os cmdArgs label showStdOut showStdErr e t s0 s1 p ps rs hc h hok
    obtain ⟨hflag, hshow, henv0⟩ := CreateAudio_ok os cmdArgs label showStdOut showStdErr t s0 hc
    rw [audioReads_eq_teeReads] at h
    obtain ⟨_, evs, hevs, _, henv, hne⟩ := teeReads_ok _ _ (p :: ps) s0 s1 rs h hok
    cases hf : p.frame with
    | none => exact absurd hf (hne hflag)
    | some chunk =>
      refine ⟨chunk, rfl, ?_⟩
      rw [hevs, envCalls_append, henv0, henv]
      simp [envEvents, hflag, hf, envCalls, audioEnv, hshow]
  · intro os cmdArgs label showStdOut showStdErr t s0 s1 p ps rs hc h hok
    rw [CreateVideo_eq_CreateAudio] at hc
    obtain ⟨hflag, hshow, henv0⟩ := CreateAudio_ok os cmdArgs label showStdOut showStdErr t s0 hc
    rw [videoReads_eq_teeReads] at h
    obtain ⟨_, evs, hevs, _, henv, hne⟩ := teeReads_ok _ _ (p :: ps) s0 s1 rs h hok
    cases hf : p.frame with
    | none => exact absurd hf (hne hflag)
    | some img =>
      refine ⟨img, rfl, ?_⟩
      rw [hevs, envCalls_append, henv0, henv]
      simp [envEvents, hflag, hf, envCalls, videoEnv, hshow]

/-- C3 at three pulls through a transform constructed for `cat`: the sample
chunk first, then chunks with other metadata. -/
theorem environment_single_set_witness :
    (∃ chunk, (samplePull sampleChunk).frame = some chunk ∧
      envCalls (audioReads .little
          [samplePull sampleChunk, samplePull sampleOtherChunk, samplePull sampleChunk]
          sampleTee).1.trace = [(.chunkInfo chunk.ChunkInfo, false)]) ∧
    (∃ img, (samplePull sampleImage).frame = some img ∧
      envCalls (videoReads [samplePull sampleImage, samplePull sampleOtherImage]
          sampleTee).1.trace =
        [(.imgMetadata
            { width := img.Bounds.Dx
              height := img.Bounds.Dy
              pixFormat := (getImageBytes (some img)).2.1
              pixSubsampleRatio := (getImageBytes (some img)).2.2 },
          false)]) :=
  ⟨environment_single_set.1 sampleAnswers ["cat"] "tee" false false .little
      [.Open, .StdinPipe, .Start] sampleTee _ (samplePull sampleChunk)
      [samplePull sampleOtherChunk, samplePull sampleChunk] _ rfl rfl (by simp),
   environment_single_set.2 sampleAnswers ["cat"] "tee" false false
      [.Open, .StdinPipe, .Start] sampleTee _ (samplePull sampleImage)
      [samplePull sampleOtherImage] _ rfl rfl (by simp)⟩

/-- C4 (stream errors): a call of the wrapped reader returns a non-nil error
exactly when the upstream read returned that error, or the upstream read
succeeded and the stdin write of the call returned that error; the frame
returned with it is nil; `Close` is then among the calls made on the process
host during the call; and when the upstream read failed, nothing is written
to stdin during the call.  Stated from the inputs of the call as well: if the
upstream read succeeds, the frame serializes to `bytes` (a non-nil frame when
the flag is still unset) and the write of `bytes` fails with `err`, the call
returns a nil frame and `err`, `bytes` is its one write and `Close` its last
host call; if the upstream read fails with `err`, the call returns a nil
frame and `err` and `Close` is its only host call. -/
theorem stream_errors :
    (∀ (e : Endian) (p : Pull Audio) (s : TeeState),
      (∀ fr err, (audioRead e p s).2 = .ret (fr, some err) ↔
        fr = none ∧ (p.err = some err ∨
          (p.err = none ∧ ∃ bytes,
            stdinWrites (newEvents s (audioRead e p s).1) = [bytes] ∧
            p.write bytes = some err))) ∧
      (∀ fr err, (audioRead e p s).2 = .ret (fr, some err) →
        Event.Close ∈ newEvents s (audioRead e p s).1) ∧
      (p.err ≠ none → stdinWrites (newEvents s (audioRead e p s).1) = []) ∧
      (∀ bytes tag err, p.err = none → getChunkBytes e p.frame = .ret (bytes, tag) →
        (s.envVarsSetFlag = true ∨ p.frame ≠ none) → p.write bytes = some err →
        (audioRead e p s).2 = .ret (none, some err) ∧
        Event.Close ∈ newEvents s (audioRead e p s).1 ∧
        (newEvents s (audioRead e p s).1).getLast? = some Event.Close ∧
        stdinWrites (newEvents s (audioRead e p s).1) = [bytes]) ∧
      (∀ err, p.err = some err →
        (audioRead e p s).2 = .ret (none, some err) ∧
        newEvents s (audioRead e p s).1 = [Event.Close])) ∧
    (∀ (p : Pull Image) (s : TeeState),
      (∀ fr err, (videoRead p s).2 = .ret (fr, some err) ↔
        fr = none ∧ (p.err = some err ∨
          (p.err = none ∧ ∃ bytes,
            stdinWrites (newEvents s (videoRead p s).1) = [bytes] ∧
            p.write bytes = some err))) ∧
      (∀ fr err, (videoRead p s).2 = .ret (fr, some err) →
        Event.Close ∈ newEvents s (videoRead p s).1) ∧
      (p.err ≠ none → stdinWrites (newEvents s (videoRead p s).1) = []) ∧
      (∀ err, p.err = none → (s.envVarsSetFlag = true ∨ p.frame ≠ none) →
        p.write (getImageBytes p.frame).1 = some err →
        (videoRead p s).2 = .ret (none, some err) ∧
        Event.Close ∈ newEvents s (videoRead p s).1 ∧
        (newEvents s (videoRead p s).1).getLast? = some Event.Close ∧
        stdinWrites (newEvents s (videoRead p s).1) = [(getImageBytes p.frame).1]) ∧
      (∀ err, p.err = some err →
        (videoRead p s).2 = .ret (none, some err) ∧
        newEvents s (videoRead p s).1 = [Event.Close])) := by
  constructor
  · intro e p s
    rw [audioRead_eq_teeRead]
    obtain ⟨h1, h2, h3⟩ := teeRead_errors (audioSerialize e) audioEnv p s
    refine ⟨h1, h2, h3, ?_, ?_⟩
    · intro bytes tag err herr hser hfr hw
      exact teeRead_write_failure _ _ p s bytes err herr (by simp [audioSerialize, hser])
        hfr hw
    · intro err herr
      exact teeRead_upstream_failure _ _ p s err herr
  · intro p s
    rw [videoRead_eq_teeRead]
    obtain ⟨h1, h2, h3⟩ := teeRead_errors videoSerialize videoEnv p s
    refine ⟨h1, h2, h3, ?_, ?_⟩
    · intro err herr hfr hw
      exact teeRead_write_failure _ _ p s _ err herr rfl hfr hw
    · intro err herr
      exact teeRead_upstream_failure _ _ p s err herr

/-- C4 on the sample transform: at a failed upstream read the error comes
back with a nil frame, the host is closed and nothing is written; at a failed
write of the sample chunk and of the sample image the error of the write comes
back with a nil frame, the serialized frame is the one write and the host is
closed. -/
theorem stream_errors_witness :
    ((audioRead .little (sampleFailedPull Audio) sampleTee).2 = .ret (none, some (.other 1)) ∧
      Event.Close ∈ newEvents sampleTee (audioRead .little (sampleFailedPull Audio) sampleTee).1 ∧
      stdinWrites (newEvents sampleTee
        (audioRead .little (sampleFailedPull Audio) sampleTee).1) = []) ∧
    ((videoRead (sampleFailedPull Image) sampleTee).2 = .ret (none, some (.other 1)) ∧
      Event.Close ∈ newEvents sampleTee (videoRead (sampleFailedPull Image) sampleTee).1 ∧
      stdinWrites (newEvents sampleTee
        (videoRead (sampleFailedPull Image) sampleTee).1) = []) ∧
    ((audioRead .little (sampleWriteFailedPull sampleChunk) sampleTee).2 =
        .ret (none, some (.other 3)) ∧
      Event.Close ∈ newEvents sampleTee
        (audioRead .little (sampleWriteFailedPull sampleChunk) sampleTee).1 ∧
      (newEvents sampleTee
        (audioRead .little (sampleWriteFailedPull sampleChunk) sampleTee).1).getLast? =
          some Event.Close ∧
      stdinWrites (newEvents sampleTee
        (audioRead .little (sampleWriteFailedPull sampleChunk) sampleTee).1) =
          [[1, 0, 254, 255]]) ∧
    ((videoRead (sampleWriteFailedPull sampleImage) sampleTee).2 =
        .ret (none, some (.other 3)) ∧
      Event.Close ∈ newEvents sampleTee
        (videoRead (sampleWriteFailedPull sampleImage) sampleTee).1 ∧
      (newEvents sampleTee
        (videoRead (sampleWriteFailedPull sampleImage) sampleTee).1).getLast? =
          some Event.Close ∧
      stdinWrites (newEvents sampleTee
        (videoRead (sampleWriteFailedPull sampleImage) sampleTee).1) =
          [[1, 2, 3, 4, 5, 6]]) :=
  ⟨⟨((stream_errors.1 .little (sampleFailedPull Audio) sampleTee).1 none (.other 1)).2
        ⟨rfl, Or.inl rfl⟩,
      (stream_errors.1 .little (sampleFailedPull Audio) sampleTee).2.1 none (.other 1) rfl,
      (stream_errors.1 .little (sampleFailedPull Audio) sampleTee).2.2.1 (by decide)⟩,
   ⟨((stream_errors.2 (sampleFailedPull Image) sampleTee).1 none (.other 1)).2
        ⟨rfl, Or.inl rfl⟩,
      (stream_errors.2 (sampleFailedPull Image) sampleTee).2.1 none (.other 1) rfl,
      (stream_errors.2 (sampleFailedPull Image) sampleTee).2.2.1 (by decide)⟩,
   (stream_errors.1 .little (sampleWriteFailedPull sampleChunk) sampleTee).2.2.2.1
      [1, 0, 254, 255] "Int16Interleaved" (.other 3) rfl rfl (Or.inr (by decide)) rfl,
   (stream_errors.2 (sampleWriteFailedPull sampleImage) sampleTee).2.2.2.1
      (.other 3) rfl (Or.inr (by decide)) rfl⟩

/-- C5 (byte-accuracy round trip): on an interleaved 16-bit chunk with no
samples `getChunkBytes` panics (index out of range in
`UnsafeCastInt16sToBytes`) instead of returning the empty buffer; on every
non-empty sample sequence `s` it returns a buffer of `2 * len(s)` bytes that
`UnsafeCastBytesToInt16s` reads back as `s`. -/
theorem int16_roundtrip_except_empty :
    (∀ (e : Endian) (size : ChunkInfo),
      getChunkBytes e (some (.Int16Interleaved [] size)) = .panic .indexOutOfRange) ∧
    (∀ (e : Endian) (s : List Int16) (size : ChunkInfo), s ≠ [] →
      ∃ bytes,
        getChunkBytes e (some (.Int16Interleaved s size)) = .ret (bytes, "Int16Interleaved") ∧
        bytes.length = 2 * s.length ∧
        UnsafeCastBytesToInt16s e bytes = .ret s) :=
  ⟨fun _ _ => rfl, fun e s size hs => int16_roundtrip_of_ne_nil e s size hs⟩

/-- C6 (planar plane order): for a `*image.YCbCr` frame `getImageBytes`
returns `Y ++ Cb ++ Cr` with the tag `"YCbCr"`; the buffer has
`len(Y) + len(Cb) + len(Cr)` bytes and slicing it at `len(Y)` and
`len(Y) + len(Cb)` gives the three planes back. -/
theorem planar_plane_order (y cb cr : List Byte) (yStride cStride ratio : Int)
    (rect : Rectangle) :
    (getImageBytes (some (.YCbCr y cb cr yStride cStride ratio rect))).1 = y ++ cb ++ cr ∧
    (getImageBytes (some (.YCbCr y cb cr yStride cStride ratio rect))).2.1 = "YCbCr" ∧
    (getImageBytes (some (.YCbCr y cb cr yStride cStride ratio rect))).1.length =
      y.length + cb.length + cr.length ∧
    (getImageBytes (some (.YCbCr y cb cr yStride cStride ratio rect))).1.take y.length = y ∧
    ((getImageBytes (some (.YCbCr y cb cr yStride cStride ratio rect))).1.drop
      y.length).take cb.length = cb ∧
    (getImageBytes (some (.YCbCr y cb cr yStride cStride ratio rect))).1.drop
      (y.length + cb.length) = cr := by
  have h : (getImageBytes (some (.YCbCr y cb cr yStride cStride ratio rect))).1 =
      y ++ cb ++ cr := by simp [getImageBytes]
  rw [h]
  refine ⟨rfl, rfl, by simp [Nat.add_assoc], by simp, by simp, ?_⟩
  rw [← List.length_append]
  exact List.drop_left _ _

/-- C7 (packed formats): for a frame of each of the nine packed pixel types
`getImageBytes` returns the frame's `Pix`, the name of the type as format tag,
and the empty subsampling descriptor. -/
theorem packed_formats (pix : List Byte) (stride : Int) (rect : Rectangle) :
    getImageBytes (some (.CMYK pix stride rect)) = (pix, "CMYK", "") ∧
    getImageBytes (some (.RGBA pix stride rect)) = (pix, "RGBA", "") ∧
    getImageBytes (some (.NRGBA pix stride rect)) = (pix, "NRGBA", "") ∧
    getImageBytes (some (.RGBA64 pix stride rect)) = (pix, "RGBA64", "") ∧
    getImageBytes (some (.NRGBA64 pix stride rect)) = (pix, "NRGBA64", "") ∧
    getImageBytes (some (.Gray pix stride rect)) = (pix, "Gray", "") ∧
    getImageBytes (some (.Gray16 pix stride rect)) = (pix, "Gray16", "") ∧
    getImageBytes (some (.Alpha pix stride rect)) = (pix, "Alpha", "") ∧
    getImageBytes (some (.Alpha16 pix stride rect)) = (pix, "Alpha16", "") :=
  ⟨rfl, rfl, rfl, rfl, rfl, rfl, rfl, rfl, rfl⟩

/-- C8 (silent unsupported-format path): for a chunk of none of the four
named wave types `getChunkBytes` returns the empty buffer and the empty tag,
for an image of none of the named image types `getImageBytes` returns the
empty buffer, the empty tag and the empty subsampling descriptor, neither
panics, and a `Read` that pulls such a frame without upstream error and whose
write succeeds returns that frame with a nil error. -/
theorem silent_unsupported_format :
    (∀ (e : Endian) (tag : Nat) (info : ChunkInfo),
      getChunkBytes e (some (.other tag info)) = .ret ([], "")) ∧
    (∀ (tag : Nat) (bounds : Rectangle),
      getImageBytes (some (.other tag bounds)) = ([], "", "")) ∧
    (∀ (e : Endian) (p : Pull Audio) (s : TeeState) (tag : Nat) (info : ChunkInfo),
      p.err = none → p.frame = some (.other tag info) → p.write [] = none →
      (audioRead e p s).2 = .ret (p.frame, none)) ∧
    (∀ (p : Pull Image) (s : TeeState) (tag : Nat) (bounds : Rectangle),
      p.err = none → p.frame = some (.other tag bounds) → p.write [] = none →
      (videoRead p s).2 = .ret (p.frame, none)) := by
  refine ⟨fun _ _ _ => rfl, fun _ _ => rfl, ?_, ?_⟩
  · intro e p s tag info herr hfr hw
    rw [audioRead_eq_teeRead, hfr]
    exact teeRead_returns _ _ p s _ [] herr hfr rfl hw
  · intro p s tag bounds herr hfr hw
    rw [videoRead_eq_teeRead, hfr]
    exact teeRead_returns _ _ p s _ [] herr hfr rfl hw

/-- C8 at the sample frames of unnamed types, read through the sample
transform. -/
theorem silent_unsupported_format_witness :
    (audioRead .little (samplePull sampleOtherChunk) sampleTee).2 =
      .ret (some sampleOtherChunk, none) ∧
    (videoRead (samplePull sampleOtherImage) sampleTee).2 =
      .ret (some sampleOtherImage, none) :=
  ⟨silent_unsupported_format.2.2.1 .little (samplePull sampleOtherChunk) sampleTee 7
      sampleInfo rfl rfl rfl,
   silent_unsupported_format.2.2.2 (samplePull sampleOtherImage) sampleTee 3
      { Min := { X := 0, Y := 0 }, Max := { X := 1, Y := 1 } } rfl rfl rfl⟩

/-- C9 (invalid command): when the command tokenizes to no argument or to an
empty first token, both constructors return a nil transform and
`errInvalidCommand`, and have made no call on the process host. -/
theorem invalid_command (os : HostAnswers) (cmdArgs : List String) (label : String)
    (showStdOut showStdErr : Bool) (h : cmdArgs = [] ∨ cmdArgs.head? = some "") :
    CreateAudioCmdTeeTransformer os cmdArgs label showStdOut showStdErr =
      ([], .ret (none, some .errInvalidCommand)) ∧
    CreateVideoCmdTeeTransformer os cmdArgs label showStdOut showStdErr =
      ([], .ret (none, some .errInvalidCommand)) := by
  have hc : (cmdArgs.length = 0 || cmdArgs.head? = some "") = true := by
    rcases h with h | h
    · simp [h]
    · simp [h]
  constructor
  · unfold CreateAudioCmdTeeTransformer
    rw [if_pos hc]
  · unfold CreateVideoCmdTeeTransformer
    rw [if_pos hc]

/-- C9 at a command whose first token is empty. -/
theorem invalid_command_witness :
    CreateAudioCmdTeeTransformer sampleAnswers ["", "-i"] "tee" true true =
      ([], .ret (none, some .errInvalidCommand)) ∧
    CreateVideoCmdTeeTransformer sampleAnswers ["", "-i"] "tee" true true =
      ([], .ret (none, some .errInvalidCommand)) :=
  invalid_command sampleAnswers ["", "-i"] "tee" true true (Or.inr rfl)

/-- C10 (rejection of invalid Record calls): in a state from which the
transition to `StateRunning` is invalid, `state.Update` returns the error
without running the record routine, yet `VideoRecord` and `AudioRecord` return
a nil reader and a nil error, and the state is unchanged. -/
theorem record_drops_rejection {P V A : Type} (invalid : State → State → Option Error)
    (w : adapterWrapper P V A) (p : P) (err : Error)
    (h : invalid w.state .StateRunning = some err) :
    (∀ (κ : Type) (f : κ → κ × Option Error) (k : κ),
      State.Update invalid w.state .StateRunning f k = (w.state, k, some err)) ∧
    (w.VideoRecord invalid p).2 = (none, none) ∧
    (w.AudioRecord invalid p).2 = (none, none) ∧
    (w.VideoRecord invalid p).1.state = w.state ∧
    (w.AudioRecord invalid p).1.state = w.state := by
  refine ⟨?_, ?_, ?_, ?_, ?_⟩
  · intro κ f k
    simp [State.Update, h]
  · simp [adapterWrapper.VideoRecord, State.Update, h]
  · simp [adapterWrapper.AudioRecord, State.Update, h]
  · simp [adapterWrapper.VideoRecord, State.Update, h]
  · simp [adapterWrapper.AudioRecord, State.Update, h]

/-- C10 at a wrapper that has not been opened. -/
theorem record_drops_rejection_witness :
    (sampleWrapper.VideoRecord sampleInvalid ()).2 = (none, none) ∧
    (sampleWrapper.AudioRecord sampleInvalid ()).2 = (none, none) :=
  ⟨(record_drops_rejection sampleInvalid sampleWrapper () (.other 2) rfl).2.1,
   (record_drops_rejection sampleInvalid sampleWrapper () (.other 2) rfl).2.2.1⟩

/-! ## Recognised formats and the empty-buffer fault -/

theorem kind_blankImage (k : ImageKind) : (blankImage k).kind = k := by
  cases k <;> rfl

/-- The tag `getImageBytes` returns is non-empty exactly for the images of a
named type. -/
theorem tag_ne_empty_iff (img : Image) :
    (getImageBytes (some img)).2.1 ≠ "" ↔ img.kind ∈ namedKinds := by
  cases img <;> simp [getImageBytes, Image.kind, namedKinds]

/-- The image types with a non-empty tag are the ten named ones. -/
theorem recognisedKinds_eq :
    {k : ImageKind | ∃ img : Image, img.kind = k ∧ (getImageBytes (some img)).2.1 ≠ ""} =
      ↑namedKinds.toFinset := by
  ext k
  simp only [Set.mem_setOf_eq, Finset.mem_coe, List.mem_toFinset]
  constructor
  · rintro ⟨img, rfl, h⟩
    exact (tag_ne_empty_iff img).1 h
  · intro hk
    refine ⟨blankImage k, kind_blankImage k, (tag_ne_empty_iff _).2 ?_⟩
    rw [kind_blankImage]
    exact hk

theorem card_namedKinds : namedKinds.toFinset.card = 10 := by
  decide

/-- The channel loop returns when the cast returns on every channel, and
panics with the index fault when some channel is empty; `cast` is a cast that
panics exactly on the empty slice. -/
theorem appendChannels_returns_iff {α : Type} (cast : List α → Result (List Byte))
    (hnil : cast [] = .panic .indexOutOfRange)
    (hcons : ∀ c, c ≠ [] → ∃ bytes, cast c = .ret bytes)
    (data : List Byte) (channels : List (List α)) :
    ((∀ c ∈ channels, c ≠ []) → ∃ out, appendChannels cast data channels = .ret out) ∧
    ((∃ c ∈ channels, c = []) →
      appendChannels cast data channels = .panic .indexOutOfRange) := by
  induction channels generalizing data with
  | nil =>
    exact ⟨fun _ => ⟨data, rfl⟩, fun h => by simp at h⟩
  | cons c rest ih =>
    by_cases hc : c = []
    · subst hc
      refine ⟨fun h => absurd rfl (h [] (by simp)), fun _ => ?_⟩
      simp [appendChannels, hnil]
    · obtain ⟨bytes, hb⟩ := hcons c hc
      constructor
      · intro h
        simp only [appendChannels, hb]
        exact (ih (data ++ bytes)).1 (fun c1 h1 => h c1 (List.mem_cons_of_mem _ h1))
      · rintro ⟨c1, h1, h2⟩
        simp only [appendChannels, hb]
        apply (ih (data ++ bytes)).2
        rcases List.mem_cons.1 h1 with h3 | h3
        · exact absurd (h3 ▸ h2) hc
        · exact ⟨c1, h3, h2⟩

theorem UnsafeCastInt16sToBytes_ne_nil (e : Endian) (c : List Int16) (hc : c ≠ []) :
    ∃ bytes, UnsafeCastInt16sToBytes e c = .ret bytes := by
  cases c with
  | nil => exact absurd rfl hc
  | cons x xs => exact ⟨_, rfl⟩

theorem UnsafeCastFloat32sToBytes_ne_nil (e : Endian) (c : List Float32) (hc : c ≠ []) :
    ∃ bytes, UnsafeCastFloat32sToBytes e c = .ret bytes := by
  cases c with
  | nil => exact absurd rfl hc
  | cons x xs => exact ⟨_, rfl⟩

/-- C11 (recognised video formats): the image types for which
`getImageBytes` returns a non-empty format tag are the ten types its type
switch names (`YCbCr` and the nine packed types), so their set has ten
members. -/
theorem recognised_video_formats :
    {k : ImageKind | ∃ img : Image, img.kind = k ∧ (getImageBytes (some img)).2.1 ≠ ""} =
      ↑namedKinds.toFinset ∧
    {k : ImageKind |
      ∃ img : Image, img.kind = k ∧ (getImageBytes (some img)).2.1 ≠ ""}.ncard = 10 := by
  refine ⟨recognisedKinds_eq, ?_⟩
  rw [recognisedKinds_eq, Set.ncard_coe_Finset]
  exact card_namedKinds

/-- C11 as stated fails: the set of image types with a non-empty format tag
does not have nine members. -/
theorem recognised_video_formats_not_nine :
    ¬ ({k : ImageKind |
      ∃ img : Image, img.kind = k ∧ (getImageBytes (some img)).2.1 ≠ ""}.ncard = 9) := by
  rw [recognisedKinds_eq, Set.ncard_coe_Finset, card_namedKinds]
  decide

/-- C12 (empty-buffer fault): both casts panic with an index fault on the
empty slice; `getChunkBytes` returns on an interleaved chunk exactly when its
`Data` is non-empty, and on a non-interleaved chunk exactly when every channel
is non-empty; whenever it does not return it panics with the index fault; a
non-interleaved chunk with no channel returns the empty buffer. -/
theorem empty_buffer_fault :
    (∀ (e : Endian), UnsafeCastInt16sToBytes e [] = .panic .indexOutOfRange ∧
      UnsafeCastFloat32sToBytes e [] = .panic .indexOutOfRange) ∧
    (∀ (e : Endian) (data : List Int16) (size : ChunkInfo),
      ((∃ r, getChunkBytes e (some (.Int16Interleaved data size)) = .ret r) ↔ data ≠ []) ∧
      (data = [] →
        getChunkBytes e (some (.Int16Interleaved data size)) = .panic .indexOutOfRange)) ∧
    (∀ (e : Endian) (data : List Float32) (size : ChunkInfo),
      ((∃ r, getChunkBytes e (some (.Float32Interleaved data size)) = .ret r) ↔ data ≠ []) ∧
      (data = [] →
        getChunkBytes e (some (.Float32Interleaved data size)) = .panic .indexOutOfRange)) ∧
    (∀ (e : Endian) (channels : List (List Int16)) (size : ChunkInfo),
      ((∃ r, getChunkBytes e (some (.Int16NonInterleaved channels size)) = .ret r) ↔
        ∀ c ∈ channels, c ≠ []) ∧
      ((∃ c ∈ channels, c = []) →
        getChunkBytes e (some (.Int16NonInterleaved channels size)) =
          .panic .indexOutOfRange)) ∧
    (∀ (e : Endian) (channels : List (List Float32)) (size : ChunkInfo),
      ((∃ r, getChunkBytes e (some (.Float32NonInterleaved channels size)) = .ret r) ↔
        ∀ c ∈ channels, c ≠ []) ∧
      ((∃ c ∈ channels, c = []) →
        getChunkBytes e (some (.Float32NonInterleaved channels size)) =
          .panic .indexOutOfRange)) ∧
    (∀ (e : Endian) (size : ChunkInfo),
      getChunkBytes e (some (.Int16NonInterleaved [] size)) = .ret ([], "Int16NonInterleaved") ∧
      getChunkBytes e (some (.Float32NonInterleaved [] size)) =
        .ret ([], "Float32NonInterleaved")) := by
  refine ⟨fun _ => ⟨rfl, rfl⟩, ?_, ?_, ?_, ?_, fun _ _ => ⟨rfl, rfl⟩⟩
  · intro e data size
    cases data with
    | nil => simp [getChunkBytes, UnsafeCastInt16sToBytes]
    | cons x xs => simp [getChunkBytes, UnsafeCastInt16sToBytes]
  · intro e data size
    cases data with
    | nil => simp [getChunkBytes, UnsafeCastFloat32sToBytes]
    | cons x xs => simp [getChunkBytes, UnsafeCastFloat32sToBytes]
  · intro e channels size
    obtain ⟨hret, hpanic⟩ := appendChannels_returns_iff (UnsafeCastInt16sToBytes e) rfl
      (UnsafeCastInt16sToBytes_ne_nil e) [] channels
    have hp : (∃ c ∈ channels, c = []) →
        getChunkBytes e (some (.Int16NonInterleaved channels size)) =
          .panic .indexOutOfRange := by
      intro h
      simp [getChunkBytes, hpanic h]
    refine ⟨⟨?_, ?_⟩, hp⟩
    · rintro ⟨r, hr⟩ c hc hnil
      rw [hp ⟨c, hc, hnil⟩] at hr
      cases hr
    · intro h
      obtain ⟨out, hout⟩ := hret h
      exact ⟨(out, "Int16NonInterleaved"), by simp [getChunkBytes, hout]⟩
  · intro e channels size
    obtain ⟨hret, hpanic⟩ := appendChannels_returns_iff (UnsafeCastFloat32sToBytes e) rfl
      (UnsafeCastFloat32sToBytes_ne_nil e) [] channels
    have hp : (∃ c ∈ channels, c = []) →
        getChunkBytes e (some (.Float32NonInterleaved channels size)) =
          .panic .indexOutOfRange := by
      intro h
      simp [getChunkBytes, hpanic h]
    refine ⟨⟨?_, ?_⟩, hp⟩
    · rintro ⟨r, hr⟩ c hc hnil
      rw [hp ⟨c, hc, hnil⟩] at hr
      cases hr
    · intro h
      obtain ⟨out, hout⟩ := hret h
      exact ⟨(out, "Float32NonInterleaved"), by simp [getChunkBytes, hout]⟩

/-- C12 at the sample chunk (returns), at a stereo non-interleaved chunk
whose second channel is empty (panics), and at a non-interleaved chunk with
no channel (returns the empty buffer). -/
theorem empty_buffer_fault_witness :
    (∃ r, getChunkBytes .little (some sampleChunk) = .ret r) ∧
    getChunkBytes .little
        (some (.Int16NonInterleaved [[⟨1, by decide⟩], []] sampleInfo)) =
      .panic .indexOutOfRange ∧
    getChunkBytes .little (some (.Int16NonInterleaved [] sampleInfo)) =
      .ret ([], "Int16NonInterleaved") :=
  ⟨((empty_buffer_fault.2.1 .little [⟨1, by decide⟩, ⟨-2, by decide⟩] sampleInfo).1).2
      (by simp),
   (empty_buffer_fault.2.2.2.1 .little [[⟨1, by decide⟩], []] sampleInfo).2
      ⟨[], by simp, rfl⟩,
   (empty_buffer_fault.2.2.2.2.2 .little sampleInfo).1⟩

end Mediadevices
